import Mathlib

/-!
Verification of the Stock-Market-Indices repository's configuration-driven
table-discovery, ticker-normalization, enrichment and aggregation engine.
The definitions below are shallow embeddings of the Python source:
a Python function that can raise an exception is embedded as an
Option-valued Lean function (`none` = the call raised).
-/

namespace StockIndices

/-! ## Ticker normalization (src/data_Fetching_codes/famous_indices.py)

The hangseng entry of INDEX_CONFIG uses
`clean_fn = lambda s: f"{int(s):04d}.HK"`.
Python `int(s)` strips surrounding whitespace, accepts an optional single
sign character followed by one or more decimal digits, and raises
ValueError otherwise; we embed the raise as `none`. -/

/-- Decimal value of a digit list (most significant first). -/
def digitsVal : List Char → Nat
  | [] => 0
  | c :: cs => digitsVal cs + c.toNat.sub 48 * 10 ^ cs.length

/-- The digit body of an integer literal: nonempty and all decimal digits. -/
def parseDigits (cs : List Char) : Option Nat :=
  if cs = [] then none
  else if cs.all Char.isDigit then some (digitsVal cs)
  else none

/-- Strip leading and trailing whitespace (what Python `int` does before
parsing). -/
def pyStrip (cs : List Char) : List Char :=
  ((cs.dropWhile Char.isWhitespace).reverse.dropWhile Char.isWhitespace).reverse

/-- Embedding of Python `int(s)`: strip whitespace, optional sign, digits;
`none` models the ValueError raised on any other shape. -/
def parsePyInt (s : String) : Option Int :=
  match pyStrip s.toList with
  | [] => none
  | c :: cs =>
    if c = '+' then (parseDigits cs).map Int.ofNat
    else if c = '-' then (parseDigits cs).map (fun n => -(Int.ofNat n))
    else (parseDigits (c :: cs)).map Int.ofNat

/-- Left-pad a string with '0' to width `w` (the padding of `"%04d"`). -/
def padZeros (w : Nat) (s : String) : String :=
  if w ≤ s.length then s else String.mk (List.replicate (w - s.length) '0') ++ s

/-- Embedding of the Python format `f"{n:04d}"`: zero-pad to overall width 4,
the sign (if any) counting toward the width. -/
def fmt04d (n : Int) : String :=
  if 0 ≤ n then padZeros 4 (toString n.toNat)
  else "-" ++ padZeros 3 (toString (-n).toNat)

/-- Embedding of the hangseng `clean_fn = lambda s: f"{int(s):04d}.HK"`.
`none` models the ValueError raised by `int` on a non-numeric string. -/
def hangseng_clean (s : String) : Option String :=
  (parsePyInt s).map (fun n => fmt04d n ++ ".HK")

/-- Embedding of the ticker step of `get_tickers_from_wikipedia` for the
hangseng config: `df[ticker_col].astype(str).apply(clean_fn).tolist()`.
`Series.apply` propagates the first exception raised by `clean_fn`,
hence the `Option.mapM`: one bad value fails the whole column. -/
def cleanColumn : List String → Option (List String)
  | [] => some []
  | v :: vs =>
    match hangseng_clean v with
    | none => none
    | some t => (cleanColumn vs).map (t :: ·)

/-- Embedding of `get_tickers_from_wikipedia` (hangseng) restricted to its
cleaning stage: the surrounding `try/except` catches the exception from
`apply`, logs, and returns the empty list for the index. -/
def get_tickers_hangseng (vals : List String) : List String :=
  match cleanColumn vals with
  | some ts => ts
  | none => []

/-- Embedding of the per-index loop in `famous_indices.__main__`: each
config's ticker scrape runs independently of the others. -/
def runBatch (indexCols : List (List String)) : List (List String) :=
  indexCols.map get_tickers_hangseng

/-! ## Constituent records and enrichment (src/eodhd_index_test.py)

`enrich_constituent_data` walks the record set; for each row it computes
`should_fetch = (row['Sector'] == 'N/A' or row['MarketCap'] == 0)`, skips
the yfinance lookup when `should_fetch` is false, and otherwise fetches:
sector is filled only when it is still the `'N/A'` sentinel, while
`MarketCap` is always assigned `info.get('marketCap', 0)`.  A raising
lookup leaves the row unchanged.  Finally the frame is filtered to
`MarketCap > 0`. -/

/-- One row of the constituent result set. Market cap is a rational to
embed the numeric column exactly. -/
structure ConstituentRecord where
  ticker : String
  sector : String
  marketCap : Rat
deriving DecidableEq

/-- The payload of a successful yfinance `ticker.info` lookup: `info.get`
on an absent key yields the default, embedded by `Option`. -/
structure LookupResult where
  sector : Option String
  marketCap : Option Rat
deriving DecidableEq

/-- `should_fetch = (row['Sector'] == 'N/A' or row['MarketCap'] == 0)`. -/
def shouldFetch (r : ConstituentRecord) : Bool :=
  r.sector == "N/A" || r.marketCap == 0

/-- One iteration of the enrichment loop: the returned pair is the
(possibly updated) row together with the list of tickers the external
lookup was invoked for during this iteration (`lookup = none` embeds a
raising call, caught by the loop's `except`). -/
def enrichStep (lookup : String → Option LookupResult) (r : ConstituentRecord) :
    ConstituentRecord × List String :=
  if shouldFetch r then
    match lookup r.ticker with
    | none => (r, [r.ticker])
    | some info =>
      ({ ticker := r.ticker
         sector := if r.sector == "N/A" then info.sector.getD "N/A" else r.sector
         marketCap := info.marketCap.getD 0 }, [r.ticker])
  else (r, [])

/-- The full enrichment loop: updated rows plus the trace of lookup
invocations, in row order. -/
def enrichAll (lookup : String → Option LookupResult) :
    List ConstituentRecord → List ConstituentRecord × List String
  | [] => ([], [])
  | r :: rs =>
    let p := enrichStep lookup r
    let q := enrichAll lookup rs
    (p.1 :: q.1, p.2 ++ q.2)

/-- `enrich_constituent_data`: run the loop, then apply the quality gate
`constituents_df = constituents_df[constituents_df['MarketCap'] > 0]`. -/
def enrich_constituent_data (lookup : String → Option LookupResult)
    (rs : List ConstituentRecord) : List ConstituentRecord :=
  (enrichAll lookup rs).1.filter (fun r => 0 < r.marketCap)

/-! ## Aggregation (src/eodhd_index_test.py, analyze_and_display_results)

On an empty frame the function returns `None` before any division.
Otherwise it builds a count breakdown (`value_counts`, percentage =
count / len(df) * 100) and a weight breakdown (`groupby('Sector').sum()`,
`sort_values(by='MarketCap', ascending=False)`, weight =
cap / total_market_cap * 100). -/

/-- Row of the count breakdown. -/
structure CountRow where
  sector : String
  count : Nat
  percentage : Rat
deriving DecidableEq

/-- Row of the weight breakdown. -/
structure WeightRow where
  sector : String
  marketCap : Rat
  weightPct : Rat
deriving DecidableEq

/-- Distinct values in first-appearance order (the grouping keys). -/
def dedupKeys : List String → List String → List String
  | [], _ => []
  | s :: ss, seen => if s ∈ seen then dedupKeys ss seen else s :: dedupKeys ss (s :: seen)

/-- The distinct sectors of a record set. -/
def uniqueSectors (rs : List ConstituentRecord) : List String :=
  dedupKeys (rs.map (·.sector)) []

/-- Summed market cap of one sector's records. -/
def sectorSum (rs : List ConstituentRecord) (sec : String) : Rat :=
  ((rs.filter (fun r => r.sector == sec)).map (·.marketCap)).sum

/-- Member count of one sector. -/
def sectorCount (rs : List ConstituentRecord) (sec : String) : Nat :=
  (rs.filter (fun r => r.sector == sec)).length

/-- Insert into a list kept in descending `key` order. -/
def insertDescBy (key : α → Rat) (x : α) : List α → List α
  | [] => [x]
  | y :: ys => if key y ≤ key x then x :: y :: ys else y :: insertDescBy key x ys

/-- Sort descending by `key` (the `ascending=False` sort / the descending
order of `value_counts`). -/
def sortDescBy (key : α → Rat) : List α → List α
  | [] => []
  | x :: xs => insertDescBy key x (sortDescBy key xs)

/-- The count breakdown (`value_counts` plus the percentage column). -/
def sector_counts (rs : List ConstituentRecord) : List CountRow :=
  let grouped := (uniqueSectors rs).map (fun s => (s, sectorCount rs s))
  (sortDescBy (fun p => (p.2 : Rat)) grouped).map
    (fun p => ⟨p.1, p.2, (p.2 : Rat) / (rs.length : Rat) * 100⟩)

/-- The weight breakdown: group by sector, sum market cap, sort the sums
descending, then attach `Weight (%) = cap / total * 100`. -/
def sector_weights (rs : List ConstituentRecord) : List WeightRow :=
  let total := (rs.map (·.marketCap)).sum
  let grouped := (uniqueSectors rs).map (fun s => (s, sectorSum rs s))
  (sortDescBy (fun p => p.2) grouped).map
    (fun p => ⟨p.1, p.2, p.2 / total * 100⟩)

/-- `analyze_and_display_results`: `None` on an empty frame, otherwise the
two breakdowns. -/
def analyze_and_display_results (rs : List ConstituentRecord) :
    Option (List CountRow × List WeightRow) :=
  if rs.isEmpty then none
  else some (sector_counts rs, sector_weights rs)

/-! ## css-class table selection (src/eodhd_index_test.py, _scrape_with_css_class)

`soup.find_all('table', {'class': re.compile(r'\b' + class_ + r'\b')})`
keeps the tables one of whose class tokens contains the configured class
as a whole word; since the configured class consists of word characters
only, the regex matches a token exactly when the class is one of the
token's maximal word-character runs.  Each candidate is then parsed by
pandas (a parse failure is skipped by `continue`), hierarchical headers
are collapsed with `'_'.join(map(str, col)).strip()`, and the first
candidate whose columns contain `ticker_column` is returned. -/

/-- Word characters in the sense of the regex `\b` boundary. -/
def isWordChar (c : Char) : Bool := c.isAlphanum || c == '_'

/-- Maximal word-character runs of a character list. -/
def wordRuns : List Char → List Char → List (List Char)
  | [], acc => if acc.isEmpty then [] else [acc.reverse]
  | c :: cs, acc =>
    if isWordChar c then wordRuns cs (c :: acc)
    else if acc.isEmpty then wordRuns cs []
    else acc.reverse :: wordRuns cs []

/-- The regex `\b<cl>\b` (with `cl` made of word characters) matches a
class token exactly when `cl` is one of its maximal word runs. -/
def tokenWordMatch (cl token : String) : Bool :=
  (wordRuns token.toList []).contains cl.toList

/-- A table element matches the class filter when some token of its class
attribute word-matches the configured class. -/
def tableClassMatches (cl : String) (classes : List String) : Bool :=
  classes.any (tokenWordMatch cl)

/-- Column header(s) of a parsed table: flat, or hierarchical
(pandas MultiIndex). -/
inductive Cols where
  | flat (names : List String)
  | multi (names : List (List String))
deriving DecidableEq

/-- A table as parsed by `pd.read_html`. -/
structure ParsedTable where
  cols : Cols
  rows : List (List String)
deriving DecidableEq

/-- A table element of the fetched page: its class tokens and the result
of the pandas parse (`none` embeds the parse exception). -/
structure HtmlTable where
  classes : List String
  parse : Option ParsedTable
deriving DecidableEq

/-- `str.strip()`: drop whitespace from both ends. -/
def strStrip (s : String) : String :=
  String.mk (pyStrip s.toList)

/-- The collapsed single-level column names:
`['_'.join(map(str, col)).strip() for col in df.columns.values]`. -/
def collapseCols : Cols → List String
  | .flat ns => ns
  | .multi ns => ns.map (fun col => strStrip (String.intercalate "_" col))

/-- RawTable of the spec: the selected table after header collapsing. -/
structure RawTable where
  columns : List String
  rows : List (List String)
deriving DecidableEq

/-- Collapse a parsed table into a RawTable. -/
def collapse (pt : ParsedTable) : RawTable :=
  ⟨collapseCols pt.cols, pt.rows⟩

/-- A candidate qualifies when pandas can parse it and its collapsed
columns contain the configured ticker column. -/
def qualifies (tc : String) (t : HtmlTable) : Bool :=
  match t.parse with
  | some pt => (collapseCols pt.cols).contains tc
  | none => false

/-- The candidate loop of `_scrape_with_css_class`: skip unparseable
tables, return the first one containing the ticker column. -/
def firstQualifying (tc : String) : List HtmlTable → Option RawTable
  | [] => none
  | t :: ts =>
    match t.parse with
    | none => firstQualifying tc ts
    | some pt =>
      if (collapseCols pt.cols).contains tc then some (collapse pt)
      else firstQualifying tc ts

/-- `_scrape_with_css_class`: filter the page's tables by class, report
`None` when nothing matched, otherwise scan for the first qualifying
candidate. -/
def scrape_with_css_class (cl tc : String) (tables : List HtmlTable) : Option RawTable :=
  let cands := tables.filter (fun t => tableClassMatches cl t.classes)
  if cands.isEmpty then none
  else firstQualifying tc cands

/-! ## Constituent extraction for S&P Asia 50
(src/eodhd_index_test.py, get_constituent_table, custom_clean_fn branch)

`raw_df.apply(lambda row: str(row[ticker_col]) + exchange_map.get(row['Country'], ''), axis=1)`
maps every row — in order, one output per row, with no deduplication —
to the raw ticker concatenated with the country's exchange suffix. -/

/-- The `spasia50` country → suffix table. -/
def spasia50ExchangeMap : List (String × String) :=
  [("Hong Kong", ".HK"), ("South Korea", ".KS"), ("Singapore", ".SI"), ("Taiwan", ".TW")]

/-- `exchange_map.get(country, '')`. -/
def suffixFor (m : List (String × String)) (country : String) : String :=
  match m.find? (fun p => p.1 == country) with
  | some p => p.2
  | none => ""

/-- One raw row of the S&P Asia 50 table (ticker and country columns). -/
structure SpAsiaRow where
  ticker : String
  country : String
deriving DecidableEq

/-- The Ticker column produced by `get_constituent_table` for spasia50:
a per-row map, preserving order and multiplicity. -/
def spasia50_tickers (rows : List SpAsiaRow) : List String :=
  rows.map (fun r => r.ticker ++ suffixFor spasia50ExchangeMap r.country)

/-! ## Landmark table-selection strategy -/

/-- Why the landmark strategy found nothing. -/
inductive NotFoundReason where
  | landmarkAbsent
  | noTableAfterLandmark
deriving DecidableEq

/-- Typed result of a table-selection strategy. -/
inductive SelectResult where
  | found (t : RawTable)
  | notFound (r : NotFoundReason)
deriving DecidableEq

/-- Elements of a page in document order, as the landmark strategy sees
them: headings and tables (data tables flagged). -/
inductive PageElem where
  | heading (text : String)
  | table (isDataTable : Bool) (content : RawTable)
deriving DecidableEq

/-- Case-insensitive substring test over the underlying characters. -/
def substrAt : List Char → List Char → Bool
  | pat, [] => pat.isEmpty
  | pat, c :: rest => pat.isPrefixOf (c :: rest) || substrAt pat rest

/-- Lower-case a character list (case folding for the landmark match). -/
def lowerChars (cs : List Char) : List Char :=
  cs.map Char.toLower

/-- Modelled from the spec: the landmark pattern matches a heading by
case-insensitive substring containment (spec §4.1). -/
def matchesLandmark (pat text : String) : Bool :=
  substrAt (lowerChars pat.toList) (lowerChars text.toList)

/-- Modelled from the spec: the nearest following table element classed as
a data table (spec §4.1). -/
def firstDataTableAfter : List PageElem → Option RawTable
  | [] => none
  | .table true t :: _ => some t
  | .table false _ :: es => firstDataTableAfter es
  | .heading _ :: es => firstDataTableAfter es

/-- Modelled from the spec: the landmark table-selection strategy of spec
§4.1 has no implementation under src/ (only the diagnostic script
getting_html.py, which merely lists headings), so it is modelled from the
spec's words: locate the first heading matching the landmark pattern, take
the nearest following data table, and report NotFound when the landmark is
absent or no qualifying table follows it. -/
def landmarkSelect (pat : String) : List PageElem → SelectResult
  | [] => .notFound .landmarkAbsent
  | .heading h :: es =>
    if matchesLandmark pat h then
      match firstDataTableAfter es with
      | some t => .found t
      | none => .notFound .noTableAfterLandmark
    else landmarkSelect pat es
  | .table _ _ :: es => landmarkSelect pat es

/-- Modelled from the spec: each index of a batch runs the strategy
independently (spec §5, §7: no failure aborts the multi-index run). -/
def runLandmarkBatch (jobs : List (String × List PageElem)) : List SelectResult :=
  jobs.map (fun j => landmarkSelect j.1 j.2)

/-! ## Helper lemmas -/

/-- One raising clean call fails the whole column. -/
theorem cleanColumn_eq_none {vals : List String} {v : String}
    (hv : v ∈ vals) (hc : hangseng_clean v = none) : cleanColumn vals = none := by
  induction vals with
  | nil => cases hv
  | cons a as ih =>
    rcases List.mem_cons.mp hv with h | h
    · subst h
      simp [cleanColumn, hc]
    · cases ha : hangseng_clean a with
      | none => simp [cleanColumn, ha]
      | some t => simp [cleanColumn, ha, ih h]

/-- The enrichment loop distributes over list append. -/
theorem enrichAll_append (lookup : String → Option LookupResult)
    (a b : List ConstituentRecord) :
    enrichAll lookup (a ++ b) =
      ((enrichAll lookup a).1 ++ (enrichAll lookup b).1,
       (enrichAll lookup a).2 ++ (enrichAll lookup b).2) := by
  induction a with
  | nil => simp [enrichAll]
  | cons r rs ih => simp [enrichAll, ih]

/-- A record that is already complete is skipped: `should_fetch` is false. -/
theorem shouldFetch_eq_false {r : ConstituentRecord}
    (h1 : r.sector ≠ "N/A") (h2 : r.marketCap ≠ 0) : shouldFetch r = false := by
  simp [shouldFetch, h1, h2]

/-- The candidate loop returns the collapse of the first qualifying
candidate. -/
theorem firstQualifying_of_find? (tc : String) (ts : List HtmlTable) (t : HtmlTable)
    (h : ts.find? (qualifies tc) = some t) :
    ∃ pt, t.parse = some pt ∧ firstQualifying tc ts = some (collapse pt) := by
  induction ts with
  | nil => cases h
  | cons a as ih =>
    by_cases hq : qualifies tc a = true
    · rw [List.find?_cons_of_pos _ hq] at h
      cases h
      cases hp : t.parse with
      | none => rw [qualifies, hp] at hq; cases hq
      | some pt =>
        refine ⟨pt, rfl, ?_⟩
        rw [qualifies, hp] at hq
        have hmem : tc ∈ collapseCols pt.cols := by simpa using hq
        simp [firstQualifying, hp, hmem]
    · rw [List.find?_cons_of_neg _ hq] at h
      obtain ⟨pt, hpt, hfq⟩ := ih h
      refine ⟨pt, hpt, ?_⟩
      cases hp : a.parse with
      | none => simp [firstQualifying, hp, hfq]
      | some pa =>
        have hmem : tc ∉ collapseCols pa.cols := by
          rw [qualifies, hp] at hq
          simpa using hq
        simp [firstQualifying, hp, hmem, hfq]

/-- Insertion keeps exactly the previous elements plus the new one. -/
theorem mem_insertDescBy {α : Type} (key : α → Rat) (x a : α) (l : List α) :
    a ∈ insertDescBy key x l ↔ a = x ∨ a ∈ l := by
  induction l with
  | nil => simp [insertDescBy]
  | cons y ys ih =>
    by_cases h : key y ≤ key x
    · simp [insertDescBy, h, List.mem_cons]
    · simp only [insertDescBy, if_neg h, List.mem_cons, ih]
      tauto

/-- Sorting keeps exactly the previous elements. -/
theorem mem_sortDescBy {α : Type} (key : α → Rat) (a : α) (l : List α) :
    a ∈ sortDescBy key l ↔ a ∈ l := by
  induction l with
  | nil => simp [sortDescBy]
  | cons x xs ih => simp [sortDescBy, mem_insertDescBy, ih]

/-- Inserting into a descending list keeps it descending. -/
theorem pairwise_insertDescBy {α : Type} (key : α → Rat) (x : α) (l : List α)
    (h : l.Pairwise (fun a b => key b ≤ key a)) :
    (insertDescBy key x l).Pairwise (fun a b => key b ≤ key a) := by
  induction l with
  | nil => simp [insertDescBy]
  | cons y ys ih =>
    rcases List.pairwise_cons.mp h with ⟨hy, hys⟩
    by_cases hxy : key y ≤ key x
    · rw [insertDescBy, if_pos hxy]
      refine List.pairwise_cons.mpr ⟨?_, h⟩
      intro b hb
      rcases List.mem_cons.mp hb with rfl | hb
      · exact hxy
      · exact le_trans (hy b hb) hxy
    · rw [insertDescBy, if_neg hxy]
      refine List.pairwise_cons.mpr ⟨?_, ih hys⟩
      intro b hb
      rcases (mem_insertDescBy key x b ys).mp hb with rfl | hb
      · exact le_of_not_le hxy
      · exact hy b hb

/-- The insertion sort produces a descending list. -/
theorem pairwise_sortDescBy {α : Type} (key : α → Rat) (l : List α) :
    (sortDescBy key l).Pairwise (fun a b => key b ≤ key a) := by
  induction l with
  | nil => simp [sortDescBy]
  | cons x xs ih => exact pairwise_insertDescBy key x _ ih

/-- Membership in the deduplicated key list. -/
theorem mem_dedupKeys (l : List String) (s : String) :
    ∀ seen : List String, s ∈ dedupKeys l seen ↔ s ∈ l ∧ s ∉ seen := by
  induction l with
  | nil => intro seen; simp [dedupKeys]
  | cons a as ih =>
    intro seen
    by_cases ha : a ∈ seen
    · rw [dedupKeys, if_pos ha, ih seen]
      simp only [List.mem_cons]
      constructor
      · rintro ⟨h1, h2⟩
        exact ⟨Or.inr h1, h2⟩
      · rintro ⟨h1 | h1, h2⟩
        · subst h1; exact absurd ha h2
        · exact ⟨h1, h2⟩
    · rw [dedupKeys, if_neg ha]
      simp only [List.mem_cons, ih (a :: seen), List.mem_cons]
      constructor
      · rintro (rfl | ⟨h1, h2⟩)
        · exact ⟨Or.inl rfl, ha⟩
        · exact ⟨Or.inr h1, fun hs => h2 (Or.inr hs)⟩
      · rintro ⟨rfl | h1, h2⟩
        · exact Or.inl rfl
        · by_cases hsa : s = a
          · exact Or.inl hsa
          · exact Or.inr ⟨h1, fun hs => by
              rcases hs with hs | hs
              · exact hsa hs
              · exact h2 hs⟩

/-- The grouping keys are exactly the sectors that occur in the records. -/
theorem mem_uniqueSectors (rs : List ConstituentRecord) (s : String) :
    s ∈ uniqueSectors rs ↔ s ∈ rs.map (·.sector) := by
  rw [uniqueSectors, mem_dedupKeys]
  simp

/-! ## Claim theorems -/

/-- Claim C3, counterexample: the hangseng clean function raises (embedded
as `none`) on the non-numeric value "ABC"; in `get_tickers_from_wikipedia`
this drops the whole index (the parseable values "5" and "700" included),
so the failure is not a single dropped record with a surfaced drop count. -/
theorem hangseng_clean_throws_cex :
    hangseng_clean "ABC" = none ∧
    get_tickers_hangseng ["5", "ABC", "700"] = [] ∧
    "0005.HK" ∉ get_tickers_hangseng ["5", "ABC", "700"] := by
  decide

/-- Claim C3 (corrected): the per-index clean function is deterministic
but not total — a malformed value raises; the raise is caught at index
level, so the entire index's ticker list is dropped (empty result, no
per-record drop count), while the other indices of the batch still run. -/
theorem hangseng_failure_drops_whole_index (vals : List String) (v : String)
    (hv : v ∈ vals) (hc : hangseng_clean v = none) :
    get_tickers_hangseng vals = [] ∧
    ∀ rest : List (List String),
      runBatch (vals :: rest) = [] :: rest.map get_tickers_hangseng := by
  have h : cleanColumn vals = none := cleanColumn_eq_none hv hc
  have h1 : get_tickers_hangseng vals = [] := by
    simp [get_tickers_hangseng, h]
  exact ⟨h1, fun rest => by simp [runBatch, h1]⟩

/-- Claim C3, witness: the middle value "ABC" of a three-value column is
unparseable, the whole index collapses to `[]`, and the next index in the
batch is still processed. -/
theorem hangseng_failure_drops_whole_index_witness :
    ("ABC" ∈ ["5", "ABC", "700"]) ∧ hangseng_clean "ABC" = none ∧
    (get_tickers_hangseng ["5", "ABC", "700"] = [] ∧
      ∀ rest : List (List String),
        runBatch (["5", "ABC", "700"] :: rest) = [] :: rest.map get_tickers_hangseng) :=
  ⟨by decide, by decide,
    hangseng_failure_drops_whole_index ["5", "ABC", "700"] "ABC" (by decide) (by decide)⟩

/-- Claim C4, counterexample: re-applying the hangseng rule to the
canonical value "0005.HK" is not a no-op — `int("0005.HK")` raises, so the
rule yields `none` rather than `some "0005.HK"`. -/
theorem hangseng_renormalize_not_noop_cex :
    hangseng_clean "0005.HK" = none ∧
    hangseng_clean "0005.HK" ≠ some "0005.HK" := by
  decide

/-- Claim C4 (corrected): the zero-padding rule maps "5" to "0005.HK", but
it is not idempotent on canonical values: applied to "0005.HK" it raises
(a parse failure, dropping the index's whole scrape), so it never returns
a double-suffixed value but is not a no-op either. -/
theorem hangseng_zero_pad_amended :
    hangseng_clean "5" = some "0005.HK" ∧
    hangseng_clean "0005.HK" = none ∧
    get_tickers_hangseng ["0005.HK"] = [] := by
  decide

/-- Claim C7, counterexample: five raw rows containing one duplicate yield
five canonical tickers, the duplicate included — the extractor does not
deduplicate, so the output is not four unique tickers. -/
theorem extractor_no_dedup_cex :
    spasia50_tickers [⟨"5", "Hong Kong"⟩, ⟨"5", "Hong Kong"⟩,
        ⟨"005930", "South Korea"⟩, ⟨"D05", "Singapore"⟩, ⟨"2330", "Taiwan"⟩] =
      ["5.HK", "5.HK", "005930.KS", "D05.SI", "2330.TW"] ∧
    ¬ (spasia50_tickers [⟨"5", "Hong Kong"⟩, ⟨"5", "Hong Kong"⟩,
        ⟨"005930", "South Korea"⟩, ⟨"D05", "Singapore"⟩, ⟨"2330", "Taiwan"⟩]).Nodup ∧
    (spasia50_tickers [⟨"5", "Hong Kong"⟩, ⟨"5", "Hong Kong"⟩,
        ⟨"005930", "South Korea"⟩, ⟨"D05", "Singapore"⟩, ⟨"2330", "Taiwan"⟩]).length ≠ 4 := by
  decide

/-- Claim C7 (corrected): the constituent extractor yields exactly one
canonical ticker per raw row, in document order, performing no
deduplication — duplicates are retained in the output. -/
theorem extractor_one_ticker_per_row (rows : List SpAsiaRow) :
    (spasia50_tickers rows).length = rows.length ∧
    ∀ i : Nat, (spasia50_tickers rows)[i]? =
      rows[i]?.map (fun r => r.ticker ++ suffixFor spasia50ExchangeMap r.country) := by
  refine ⟨by simp [spasia50_tickers], fun i => ?_⟩
  simp [spasia50_tickers]

/-- Claim C7, witness: on the five-row input with a duplicate, the
extractor keeps all five rows, one ticker per row. -/
theorem extractor_one_ticker_per_row_witness :
    (spasia50_tickers [⟨"5", "Hong Kong"⟩, ⟨"5", "Hong Kong"⟩,
        ⟨"005930", "South Korea"⟩, ⟨"D05", "Singapore"⟩, ⟨"2330", "Taiwan"⟩]).length =
      ([⟨"5", "Hong Kong"⟩, ⟨"5", "Hong Kong"⟩, ⟨"005930", "South Korea"⟩,
        ⟨"D05", "Singapore"⟩, ⟨"2330", "Taiwan"⟩] : List SpAsiaRow).length ∧
    ∀ i : Nat, (spasia50_tickers [⟨"5", "Hong Kong"⟩, ⟨"5", "Hong Kong"⟩,
        ⟨"005930", "South Korea"⟩, ⟨"D05", "Singapore"⟩, ⟨"2330", "Taiwan"⟩])[i]? =
      (([⟨"5", "Hong Kong"⟩, ⟨"5", "Hong Kong"⟩, ⟨"005930", "South Korea"⟩,
        ⟨"D05", "Singapore"⟩, ⟨"2330", "Taiwan"⟩] : List SpAsiaRow)[i]?).map
        (fun r => r.ticker ++ suffixFor spasia50ExchangeMap r.country) :=
  extractor_one_ticker_per_row
    [⟨"5", "Hong Kong"⟩, ⟨"5", "Hong Kong"⟩, ⟨"005930", "South Korea"⟩,
     ⟨"D05", "Singapore"⟩, ⟨"2330", "Taiwan"⟩]

/-- Claim C2 (confirmed): every record in the final result set of
`enrich_constituent_data` has market capitalization strictly positive, and
a record whose market cap is still ≤ 0 after the enrichment attempt (in
particular a record with market cap 0) is absent from that result set. -/
theorem quality_gate_positive_market_cap (lookup : String → Option LookupResult)
    (rs : List ConstituentRecord) (r : ConstituentRecord) :
    (r ∈ enrich_constituent_data lookup rs → 0 < r.marketCap) ∧
    (r.marketCap ≤ 0 → r ∉ enrich_constituent_data lookup rs) := by
  constructor
  · intro h
    have := (List.mem_filter.mp h).2
    simpa using this
  · intro hle h
    have := (List.mem_filter.mp h).2
    simp at this
    exact absurd this (not_lt.mpr hle)

/-- Claim C2, witness: the record enriched from ⟨"A", "N/A", 0⟩ lands in
the final result set and the theorem yields its positive market cap. -/
theorem quality_gate_positive_market_cap_witness :
    (⟨"A", "Tech", 5⟩ : ConstituentRecord) ∈
      enrich_constituent_data (fun _ => some ⟨some "Tech", some 5⟩) [⟨"A", "N/A", 0⟩] ∧
    (0 : Rat) < 5 :=
  ⟨by decide,
    (quality_gate_positive_market_cap (fun _ => some ⟨some "Tech", some 5⟩)
      [⟨"A", "N/A", 0⟩] ⟨"A", "Tech", 5⟩).1 (by decide)⟩

/-- Claim C5 (confirmed): a record whose sector is already known (not the
"N/A" sentinel) and whose market cap is already known (not zero) passes
through enrichment unchanged and contributes no external lookup call,
wherever it sits in the record set. -/
theorem enrich_short_circuit_no_lookup (lookup : String → Option LookupResult)
    (pre post : List ConstituentRecord) (r : ConstituentRecord)
    (h1 : r.sector ≠ "N/A") (h2 : r.marketCap ≠ 0) :
    (enrichAll lookup (pre ++ r :: post)).1 =
      (enrichAll lookup pre).1 ++ r :: (enrichAll lookup post).1 ∧
    (enrichAll lookup (pre ++ r :: post)).2 =
      (enrichAll lookup pre).2 ++ (enrichAll lookup post).2 := by
  have hstep : enrichStep lookup r = (r, []) := by
    simp [enrichStep, shouldFetch_eq_false h1 h2]
  have h := enrichAll_append lookup pre (r :: post)
  constructor
  · rw [h]
    simp [enrichAll, hstep]
  · rw [h]
    simp [enrichAll, hstep]

/-- Claim C5, witness: a record with sector "Technology" and market cap
500 triggers no lookup call: the loop's call trace for the singleton batch
is empty. -/
theorem enrich_short_circuit_no_lookup_witness :
    ((⟨"AAPL", "Technology", 500⟩ : ConstituentRecord).sector ≠ "N/A") ∧
    ((⟨"AAPL", "Technology", 500⟩ : ConstituentRecord).marketCap ≠ 0) ∧
    ((enrichAll (fun _ => some ⟨some "X", some 1⟩)
        ([] ++ (⟨"AAPL", "Technology", 500⟩ : ConstituentRecord) :: [])).1 =
      (enrichAll (fun _ => some ⟨some "X", some 1⟩) []).1 ++
        (⟨"AAPL", "Technology", 500⟩ : ConstituentRecord) ::
          (enrichAll (fun _ => some ⟨some "X", some 1⟩) []).1 ∧
     (enrichAll (fun _ => some ⟨some "X", some 1⟩)
        ([] ++ (⟨"AAPL", "Technology", 500⟩ : ConstituentRecord) :: [])).2 =
      (enrichAll (fun _ => some ⟨some "X", some 1⟩) []).2 ++
        (enrichAll (fun _ => some ⟨some "X", some 1⟩) []).2) :=
  ⟨by decide, by decide,
    enrich_short_circuit_no_lookup (fun _ => some ⟨some "X", some 1⟩) [] []
      ⟨"AAPL", "Technology", 500⟩ (by decide) (by decide)⟩

/-- Claim C6 (confirmed): on a successful lookup, enrichment keeps the
ticker, fills the sector only when it is still the "N/A" sentinel — a
sector already populated from the page is never overwritten — and always
refreshes the market cap from the lookup (`info.get('marketCap', 0)`). -/
theorem enrich_fills_only_missing (lookup : String → Option LookupResult)
    (r : ConstituentRecord) (info : LookupResult)
    (hf : shouldFetch r = true) (hl : lookup r.ticker = some info) :
    (enrichStep lookup r).1.ticker = r.ticker ∧
    (r.sector ≠ "N/A" → (enrichStep lookup r).1.sector = r.sector) ∧
    (r.sector = "N/A" → (enrichStep lookup r).1.sector = info.sector.getD "N/A") ∧
    (enrichStep lookup r).1.marketCap = info.marketCap.getD 0 := by
  have hstep : (enrichStep lookup r).1 =
      ⟨r.ticker, if r.sector == "N/A" then info.sector.getD "N/A" else r.sector,
        info.marketCap.getD 0⟩ := by
    simp [enrichStep, hf, hl]
  exact ⟨by simp [hstep], fun h => by simp [hstep, h], fun h => by simp [hstep, h],
    by simp [hstep]⟩

/-- Claim C6, witness: a record with page sector "Financials" and missing
market cap is looked up; the sector survives, the market cap is refreshed
to the looked-up 9. -/
theorem enrich_fills_only_missing_witness :
    shouldFetch ⟨"0005.HK", "Financials", 0⟩ = true ∧
    ((fun _ => some (⟨some "Tech", some 9⟩ : LookupResult)) "0005.HK" =
      some ⟨some "Tech", some 9⟩) ∧
    ((enrichStep (fun _ => some ⟨some "Tech", some 9⟩)
        ⟨"0005.HK", "Financials", 0⟩).1.ticker = "0005.HK" ∧
     ((⟨"0005.HK", "Financials", (0 : Rat)⟩ : ConstituentRecord).sector ≠ "N/A" →
        (enrichStep (fun _ => some ⟨some "Tech", some 9⟩)
          ⟨"0005.HK", "Financials", 0⟩).1.sector = "Financials") ∧
     ((⟨"0005.HK", "Financials", (0 : Rat)⟩ : ConstituentRecord).sector = "N/A" →
        (enrichStep (fun _ => some ⟨some "Tech", some 9⟩)
          ⟨"0005.HK", "Financials", 0⟩).1.sector =
          (Option.getD (some "Tech") "N/A")) ∧
     (enrichStep (fun _ => some ⟨some "Tech", some 9⟩)
        ⟨"0005.HK", "Financials", 0⟩).1.marketCap = Option.getD (some 9) 0) :=
  ⟨by decide, rfl,
    enrich_fills_only_missing (fun _ => some ⟨some "Tech", some 9⟩)
      ⟨"0005.HK", "Financials", 0⟩ ⟨some "Tech", some 9⟩ (by decide) rfl⟩

/-- Claim C10 (confirmed): when the lookup is invoked for a record and
succeeds without a market-cap field, the record's market cap is set to 0 —
even when the page had scraped a positive one — and the quality gate then
removes exactly that record from the final result set. -/
theorem missing_market_cap_zeroed_and_dropped (lookup : String → Option LookupResult)
    (pre post : List ConstituentRecord) (r : ConstituentRecord) (info : LookupResult)
    (hs : r.sector = "N/A") (_hp : 0 < r.marketCap)
    (hl : lookup r.ticker = some info) (hm : info.marketCap = none) :
    (enrichStep lookup r).1.marketCap = 0 ∧
    enrich_constituent_data lookup (pre ++ r :: post) =
      enrich_constituent_data lookup pre ++ enrich_constituent_data lookup post := by
  have hf : shouldFetch r = true := by
    simp [shouldFetch, hs]
  have hcap : (enrichStep lookup r).1.marketCap = 0 := by
    simp [enrichStep, hf, hl, hm]
  refine ⟨hcap, ?_⟩
  unfold enrich_constituent_data
  rw [enrichAll_append lookup pre (r :: post)]
  have hmid : (enrichAll lookup (r :: post)).1 =
      (enrichStep lookup r).1 :: (enrichAll lookup post).1 := rfl
  rw [hmid, List.filter_append, List.filter_cons]
  simp [hcap]

/-- Claim C10, witness: the record ⟨"0700.HK", "N/A", 100⟩ (positive page
market cap) is looked up, the lookup returns no market cap, the record's
cap becomes 0 and it vanishes from the final result set while its
neighbour survives. -/
theorem missing_market_cap_zeroed_and_dropped_witness :
    ((⟨"0700.HK", "N/A", 100⟩ : ConstituentRecord).sector = "N/A") ∧
    ((0 : Rat) < 100) ∧
    ((fun _ => some (⟨some "Tech", none⟩ : LookupResult)) "0700.HK" =
      some ⟨some "Tech", none⟩) ∧
    ((LookupResult.mk (some "Tech") none).marketCap = none) ∧
    ((enrichStep (fun _ => some ⟨some "Tech", none⟩)
        ⟨"0700.HK", "N/A", 100⟩).1.marketCap = 0 ∧
     enrich_constituent_data (fun _ => some ⟨some "Tech", none⟩)
        ([⟨"A", "Energy", 5⟩] ++ (⟨"0700.HK", "N/A", 100⟩ : ConstituentRecord) :: []) =
      enrich_constituent_data (fun _ => some ⟨some "Tech", none⟩) [⟨"A", "Energy", 5⟩] ++
        enrich_constituent_data (fun _ => some ⟨some "Tech", none⟩) []) :=
  ⟨by decide, by decide, rfl, rfl,
    missing_market_cap_zeroed_and_dropped (fun _ => some ⟨some "Tech", none⟩)
      [⟨"A", "Energy", 5⟩] [] ⟨"0700.HK", "N/A", 100⟩ ⟨some "Tech", none⟩
      (by decide) (by decide) rfl rfl⟩

/-- Claim C1 (confirmed): whenever some class-matching table of the page
qualifies (pandas parses it and its collapsed columns contain the ticker
column), `_scrape_with_css_class` returns precisely the first qualifying
candidate in document order, collapsed. -/
theorem scrape_css_class_returns_first_qualifying (cl tc : String)
    (tables : List HtmlTable) (t : HtmlTable)
    (h : (tables.filter (fun tb => tableClassMatches cl tb.classes)).find?
          (qualifies tc) = some t) :
    ∃ pt, t.parse = some pt ∧
      scrape_with_css_class cl tc tables = some (collapse pt) := by
  obtain ⟨pt, hpt, hfq⟩ := firstQualifying_of_find? tc _ t h
  refine ⟨pt, hpt, ?_⟩
  have hne : (tables.filter (fun tb => tableClassMatches cl tb.classes)).isEmpty = false := by
    cases he : tables.filter (fun tb => tableClassMatches cl tb.classes) with
    | nil => rw [he] at h; cases h
    | cons a as => simp
  simp only [scrape_with_css_class, hne, Bool.false_eq_true, if_false]
  exact hfq

/-- Claim C1, witness: of three wikitable candidates only the second
carries the "Ticker" column; the selector returns exactly that second
table, never the first or third. -/
theorem scrape_css_class_returns_first_qualifying_witness :
    (([⟨["wikitable"], some ⟨Cols.flat ["Name", "Price"], []⟩⟩,
       ⟨["wikitable", "sortable"], some ⟨Cols.flat ["Ticker", "Country"], [["5", "HK"]]⟩⟩,
       ⟨["wikitable"], some ⟨Cols.flat ["Symbol"], []⟩⟩] :
        List HtmlTable).filter (fun tb => tableClassMatches "wikitable" tb.classes)).find?
        (qualifies "Ticker") =
      some ⟨["wikitable", "sortable"], some ⟨Cols.flat ["Ticker", "Country"], [["5", "HK"]]⟩⟩ ∧
    (∃ pt, (⟨["wikitable", "sortable"],
        some ⟨Cols.flat ["Ticker", "Country"], [["5", "HK"]]⟩⟩ : HtmlTable).parse = some pt ∧
      scrape_with_css_class "wikitable" "Ticker"
        [⟨["wikitable"], some ⟨Cols.flat ["Name", "Price"], []⟩⟩,
         ⟨["wikitable", "sortable"], some ⟨Cols.flat ["Ticker", "Country"], [["5", "HK"]]⟩⟩,
         ⟨["wikitable"], some ⟨Cols.flat ["Symbol"], []⟩⟩] = some (collapse pt)) :=
  ⟨by decide,
    scrape_css_class_returns_first_qualifying "wikitable" "Ticker"
      [⟨["wikitable"], some ⟨Cols.flat ["Name", "Price"], []⟩⟩,
       ⟨["wikitable", "sortable"], some ⟨Cols.flat ["Ticker", "Country"], [["5", "HK"]]⟩⟩,
       ⟨["wikitable"], some ⟨Cols.flat ["Symbol"], []⟩⟩]
      ⟨["wikitable", "sortable"], some ⟨Cols.flat ["Ticker", "Country"], [["5", "HK"]]⟩⟩
      (by decide)⟩

/-- Claim C9 (confirmed, spec-modelled): when no heading of the page
matches the landmark pattern, the landmark strategy returns the typed
NotFound result (landmark absent) — it is a total function, raising
nothing — and a batch whose first job hits this failure still processes
every subsequent index. -/
theorem landmark_absent_returns_not_found (pat : String) (page : List PageElem)
    (h : ∀ s, PageElem.heading s ∈ page → matchesLandmark pat s = false) :
    landmarkSelect pat page = .notFound .landmarkAbsent ∧
    ∀ rest : List (String × List PageElem),
      runLandmarkBatch ((pat, page) :: rest) =
        SelectResult.notFound NotFoundReason.landmarkAbsent ::
          rest.map (fun j => landmarkSelect j.1 j.2) := by
  have hsel : landmarkSelect pat page = .notFound .landmarkAbsent := by
    induction page with
    | nil => rfl
    | cons e es ih =>
      cases e with
      | heading s =>
        have hm : matchesLandmark pat s = false := h s (List.mem_cons_self _ _)
        have ht : ∀ s, PageElem.heading s ∈ es → matchesLandmark pat s = false :=
          fun s hs => h s (List.mem_cons_of_mem _ hs)
        simp [landmarkSelect, hm, ih ht]
      | table b t =>
        have ht : ∀ s, PageElem.heading s ∈ es → matchesLandmark pat s = false :=
          fun s hs => h s (List.mem_cons_of_mem _ hs)
        simp [landmarkSelect, ih ht]
  exact ⟨hsel, fun rest => by simp [runLandmarkBatch, hsel]⟩

/-- Claim C9, witness: a page whose only heading is "History" does not
match the landmark pattern "constituents"; the strategy reports NotFound
and the following job of the batch still runs. -/
theorem landmark_absent_returns_not_found_witness :
    landmarkSelect "constituents"
        [.heading "History", .table true ⟨["A"], []⟩] = .notFound .landmarkAbsent ∧
    ∀ rest : List (String × List PageElem),
      runLandmarkBatch (("constituents",
          [PageElem.heading "History", PageElem.table true ⟨["A"], []⟩]) :: rest) =
        SelectResult.notFound NotFoundReason.landmarkAbsent ::
          rest.map (fun j => landmarkSelect j.1 j.2) :=
  landmark_absent_returns_not_found "constituents"
    [.heading "History", .table true ⟨["A"], []⟩]
    (by
      intro s hs
      simp only [List.mem_cons, List.not_mem_nil, or_false] at hs
      rcases hs with h | h
      · cases h
        decide
      · cases h)

/-- Claim C8 (confirmed): on an empty record set the analyzer yields the
explicit `none` (no division is attempted); on a non-empty record set it
yields a weight breakdown that groups the records by sector — its rows
carry exactly the sectors occurring in the records —, whose market-cap
entry is the sector's summed market cap, whose percentage is
100 · sector sum / total market cap, and whose rows are sorted descending
by summed market cap. -/
theorem analyze_weight_breakdown_spec :
    analyze_and_display_results [] = none ∧
    ∀ rs : List ConstituentRecord, rs ≠ [] →
      ∃ cw ww, analyze_and_display_results rs = some (cw, ww) ∧
        ww.Pairwise (fun a b => b.marketCap ≤ a.marketCap) ∧
        (∀ w ∈ ww, w.marketCap = sectorSum rs w.sector ∧
          w.weightPct = w.marketCap / (rs.map (·.marketCap)).sum * 100) ∧
        (∀ w ∈ ww, w.sector ∈ rs.map (·.sector)) ∧
        (∀ s ∈ rs.map (·.sector), ∃ w ∈ ww, w.sector = s) := by
  refine ⟨rfl, fun rs hne => ⟨sector_counts rs, sector_weights rs, ?_, ?_, ?_, ?_, ?_⟩⟩
  · have he : rs.isEmpty = false := by
      cases rs with
      | nil => exact absurd rfl hne
      | cons a l => rfl
    simp [analyze_and_display_results, he]
  · simp only [sector_weights]
    rw [List.pairwise_map]
    exact (pairwise_sortDescBy (fun p : String × Rat => p.2) _).imp (fun h => h)
  · intro w hw
    simp only [sector_weights, List.mem_map] at hw
    obtain ⟨p, hp, rfl⟩ := hw
    rw [mem_sortDescBy] at hp
    simp only [List.mem_map] at hp
    obtain ⟨s, hs, rfl⟩ := hp
    exact ⟨rfl, rfl⟩
  · intro w hw
    simp only [sector_weights, List.mem_map] at hw
    obtain ⟨p, hp, rfl⟩ := hw
    rw [mem_sortDescBy] at hp
    simp only [List.mem_map] at hp
    obtain ⟨s, hs, rfl⟩ := hp
    exact (mem_uniqueSectors rs s).mp hs
  · intro s hs
    refine ⟨⟨s, sectorSum rs s,
      sectorSum rs s / (rs.map (·.marketCap)).sum * 100⟩, ?_, rfl⟩
    simp only [sector_weights, List.mem_map]
    refine ⟨(s, sectorSum rs s), ?_, rfl⟩
    rw [mem_sortDescBy]
    simp only [List.mem_map]
    exact ⟨s, (mem_uniqueSectors rs s).mpr hs, rfl⟩

/-- Claim C8, witness: the analyzer applied to a two-record, two-sector
set is `some` and its weight breakdown satisfies the grouping, percentage
and descending-order properties. -/
theorem analyze_weight_breakdown_spec_witness :
    (([⟨"A", "Tech", 1⟩, ⟨"B", "Fin", 5⟩] : List ConstituentRecord) ≠ []) ∧
    (∃ cw ww, analyze_and_display_results [⟨"A", "Tech", 1⟩, ⟨"B", "Fin", 5⟩] =
        some (cw, ww) ∧
      ww.Pairwise (fun a b => b.marketCap ≤ a.marketCap) ∧
      (∀ w ∈ ww, w.marketCap =
          sectorSum [⟨"A", "Tech", 1⟩, ⟨"B", "Fin", 5⟩] w.sector ∧
        w.weightPct = w.marketCap /
          (([⟨"A", "Tech", 1⟩, ⟨"B", "Fin", 5⟩] :
            List ConstituentRecord).map (·.marketCap)).sum * 100) ∧
      (∀ w ∈ ww, w.sector ∈
        ([⟨"A", "Tech", 1⟩, ⟨"B", "Fin", 5⟩] :
          List ConstituentRecord).map (·.sector)) ∧
      (∀ s ∈ ([⟨"A", "Tech", 1⟩, ⟨"B", "Fin", 5⟩] :
          List ConstituentRecord).map (·.sector), ∃ w ∈ ww, w.sector = s)) :=
  ⟨by decide,
    analyze_weight_breakdown_spec.2 [⟨"A", "Tech", 1⟩, ⟨"B", "Fin", 5⟩] (by decide)⟩

end StockIndices
